import Mathlib

/-!
Verification of the statement-analyzer extraction and normalization
pipeline (src/lib/parser.ts, src/lib/pdf-parser.ts, src/lib/types.ts,
src/lib/ai.ts).

The TypeScript code is shallowly embedded: strings are processed as
`List Char`, JavaScript numbers are modelled as `Rat` (floating point
rounding plays no role in the verified properties; a JS `NaN` result of
`parseFloat` is modelled as `Option.none`), and the regular expressions
of the source are implemented as executable matchers with the same
backtracking/left-most-match semantics on the character classes they
use.  Rationals are always built with `mkRat` / `Rat.neg` / `abs` and
compared with `Rat.blt` (definitionally the `<` of `Rat`), which keeps
every definition kernel-computable.
-/

/-! ## Character and list utilities -/

/-- Whitespace test used for the JavaScript `\s` class and `trim` on the
ASCII range (the inputs handled by the pipeline are ASCII). -/
def isWSChar (c : Char) : Bool :=
  c = ' ' || c = '\t' || c = '\n' || c = '\r' || c = '\x0b' || c = '\x0c'

/-- The JavaScript `\d` class `[0-9]` (code points 48-57). -/
def isDigitChar (c : Char) : Bool :=
  48 ≤ c.toNat && c.toNat ≤ 57

/-- The JavaScript `\w` class `[A-Za-z0-9_]`, used for `\b` boundaries. -/
def isWordChar (c : Char) : Bool :=
  (65 ≤ c.toNat && c.toNat ≤ 90) || (97 ≤ c.toNat && c.toNat ≤ 122)
    || isDigitChar c || c = '_'

/-- A `\b` word boundary holds before a word character iff the previous
character (if any) is not a word character. -/
def boundaryOK (prev : Option Char) : Bool :=
  match prev with
  | none => true
  | some c => !isWordChar c

/-- Does the pattern `pat` occur at the very start of `cs`? -/
def begins : List Char → List Char → Bool
  | [], _ => true
  | _ :: _, [] => false
  | p :: ps, c :: cs => p = c && begins ps cs

/-- JavaScript `String.prototype.includes`: does `needle` occur anywhere
in `hay`? -/
def containsSub (needle : List Char) : List Char → Bool
  | [] => begins needle []
  | c :: cs => begins needle (c :: cs) || containsSub needle cs

/-- Suffix of `hay` just after the first occurrence of `needle`
(`none` if `needle` does not occur). -/
def afterSub (needle : List Char) : List Char → Option (List Char)
  | [] => if begins needle [] then some [] else none
  | c :: cs =>
    if begins needle (c :: cs) then some ((c :: cs).drop needle.length)
    else afterSub needle cs

/-- Lowercase every character (JavaScript `toLowerCase` on ASCII). -/
def lowerList (cs : List Char) : List Char := cs.map Char.toLower

/-- JavaScript `trim`: drop whitespace from both ends. -/
def trimList (cs : List Char) : List Char :=
  ((cs.dropWhile isWSChar).reverse.dropWhile isWSChar).reverse

/-- Split a character list at every occurrence of `sep`
(JavaScript `String.prototype.split`). -/
def splitOnCharAux (sep : Char) : List Char → List Char → List (List Char)
  | [], acc => [acc.reverse]
  | c :: cs, acc =>
    if c = sep then acc.reverse :: splitOnCharAux sep cs []
    else splitOnCharAux sep cs (c :: acc)

def splitOnChar (sep : Char) (cs : List Char) : List (List Char) :=
  splitOnCharAux sep cs []

/-- Replace every maximal whitespace run by a single space
(JavaScript `replace(/\s+/g, ' ')`).  The flag records whether the
current character continues a run that has already emitted its space. -/
def collapseWSAux : List Char → Bool → List Char
  | [], _ => []
  | c :: cs, inRun =>
    if isWSChar c then
      if inRun then collapseWSAux cs true else ' ' :: collapseWSAux cs true
    else c :: collapseWSAux cs false

def collapseWS (cs : List Char) : List Char := collapseWSAux cs false

/-- Numeric value of a digit string (`parseInt` on pure digit input). -/
def digitsToNat (cs : List Char) : Nat :=
  cs.foldl (fun a c => a * 10 + (c.toNat - 48)) 0

/-- JavaScript `padStart(2, '0')`. -/
def padStart2 (s : String) : String :=
  if s.length = 0 then "00" else if s.length = 1 then "0" ++ s else s

/-- Decimal digit character (`48 + n` for `n < 10`). -/
def dCh (n : Nat) : Char := Char.ofNat (48 + n % 10)

/-- Decimal rendering of a natural number; the fuel argument makes the
recursion structural so that the kernel can evaluate it. -/
def natDigitsAux : Nat → Nat → List Char
  | 0, _ => []
  | fuel + 1, n => if n = 0 then [] else natDigitsAux fuel (n / 10) ++ [dCh (n % 10)]

def natToStr (n : Nat) : String :=
  if n = 0 then "0" else String.mk (natDigitsAux (n + 1) n)

def intToStr (i : Int) : String :=
  if i < 0 then "-" ++ natToStr i.natAbs else natToStr i.natAbs

/-- Rendering of a JavaScript number used in template strings.  The JS
runtime prints decimals; the model prints `num/den`.  Both renderings
are injective and never contain the `|` character, which is the only
property the deduplication key construction depends on. -/
def ratToStr (q : Rat) : String :=
  if q.den = 1 then intToStr q.num else intToStr q.num ++ "/" ++ natToStr q.den

/-! ## Data model (src/lib/types.ts) -/

/-- The `Transaction` record of src/lib/types.ts (the variant with the
`currency` field, which is the one imported by src/lib/parser.ts).  The
optional recurring flags are set only by a downstream analyzer and play
no role in the verified pipeline. -/
structure Transaction where
  id : String
  date : String
  description : String
  amount : Rat
  currency : String
  category : String
  sourceFile : String
deriving DecidableEq, Repr

/-- `DEFAULT_CATEGORIES` of src/lib/types.ts. -/
def DEFAULT_CATEGORIES : List String :=
  ["Food & Dining", "Shopping", "Transportation", "Bills & Utilities",
   "Entertainment", "Health & Medical", "Travel", "Education", "Groceries",
   "Subscriptions & Software", "Gaming", "Transfer", "Income", "Other"]

/-- `CATEGORY_KEYWORDS` of src/lib/types.ts, in declaration order
(`Object.entries` enumerates string keys in insertion order). -/
def CATEGORY_KEYWORDS : List (String × List String) :=
  [("Food & Dining",
    ["restaurant", "cafe", "coffee", "food", "pizza", "burger", "kfc",
     "mcdonald", "starbucks", "doordash", "ubereats", "grubhub", "diner",
     "eatery", "kitchen", "bakers", "bakery", "sweet", "creme", "seasons foods"]),
   ("Shopping",
    ["amazon", "walmart", "target", "costco", "ebay", "shop", "store",
     "retail", "mall", "clothing", "fashion", "apparel", "daraz", "mart",
     "citi mart", "super mart"]),
   ("Transportation",
    ["uber", "lyft", "gas", "fuel", "shell", "bp", "chevron", "exxon",
     "parking", "toll", "metro", "bus", "train", "transit", "railway", "aramco"]),
   ("Bills & Utilities",
    ["electric", "water", "gas", "internet", "phone", "mobile", "verizon",
     "at&t", "comcast", "spectrum", "utility", "bill"]),
   ("Entertainment",
    ["netflix", "spotify", "hulu", "disney", "hbo", "movie", "cinema", "theater"]),
   ("Gaming",
    ["pubg", "pubgmobile", "game", "playstation", "xbox", "steam", "twitch",
     "epic games"]),
   ("Subscriptions & Software",
    ["cursor", "perplexity", "canva", "typefully", "render.com",
     "google cloud", "google one", "chatgpt", "claude", "moonshot",
     "nanonoble", "openai", "anthropic"]),
   ("Health & Medical",
    ["pharmacy", "doctor", "hospital", "clinic", "medical", "dental",
     "health", "cvs", "walgreens", "medicine"]),
   ("Travel",
    ["hotel", "airbnb", "flight", "airline", "delta", "united",
     "american airlines", "southwest", "marriott", "hilton", "booking", "expedia"]),
   ("Education",
    ["school", "university", "college", "tuition", "course", "udemy",
     "coursera", "book", "library"]),
   ("Groceries",
    ["grocery", "supermarket", "whole foods", "trader joe", "kroger",
     "safeway", "aldi", "walmart grocery"]),
   ("Transfer",
    ["transfer", "venmo", "zelle", "paypal", "cash app", "wire", "ach"]),
   ("Income",
    ["payroll", "salary", "direct deposit", "refund", "cashback",
     "dividend", "interest"])]

/-- `lowerDesc.includes(keyword)` on already-lowercased text. -/
def strIncludes (hay needle : String) : Bool :=
  containsSub needle.data hay.data

/-- Iteration of `categorizeTransaction` over the keyword table:
return the first category one of whose keywords occurs in the
(lowercased) description, else `Other`. -/
def catFirst : List (String × List String) → String → String
  | [], _ => "Other"
  | (cat, kws) :: rest, d =>
    if kws.any (fun kw => strIncludes d kw) then cat else catFirst rest d

/-- `categorizeTransaction` of src/lib/parser.ts (the identical local
copy in src/lib/pdf-parser.ts is the same function). -/
def categorizeTransaction (description : String) : String :=
  catFirst CATEGORY_KEYWORDS (String.mk (lowerList description.data))

/-- `FAILED_KEYWORDS` of src/lib/parser.ts (duplicates kept as in the
source; they are harmless for `some`). -/
def FAILED_KEYWORDS : List String :=
  ["failed", "declined", "pending", "reversed", "declined", "failed",
   "insufficient", "over limit", "auth failed", "transaction failed",
   "payment failed", "purchase failed", "cancelled", "voided",
   "rejected", "not completed", "did not complete", "attempt failed"]

/-- `isValidTransaction` of src/lib/parser.ts: reject descriptions
containing a failure keyword and reject positive amounts.
`Rat.blt (mkRat 0 1) a` is definitionally `0 < a`. -/
def isValidTransaction (txn : Transaction) : Bool :=
  let lowerDesc := String.mk (lowerList txn.description.data)
  if FAILED_KEYWORDS.any (fun keyword => strIncludes lowerDesc keyword) then false
  else if Rat.blt (mkRat 0 1) txn.amount then false
  else true

/-! ## Deduplicator (src/lib/parser.ts, deduplicateTransactions) -/

/-- The dedup key string
`` `${t.date}|${t.description.toLowerCase().trim()}|${t.amount}` ``. -/
def dedupKey (t : Transaction) : String :=
  t.date ++ "|" ++ String.mk (trimList (lowerList t.description.data)) ++ "|"
    ++ ratToStr t.amount

/-- The loop of `deduplicateTransactions`: a `Map` keyed by `dedupKey`
keeps the first transaction inserted for each key, and `values()`
enumerates them in insertion order; that is exactly a left fold keeping
a transaction iff its key is unseen. -/
def dedupGo : List Transaction → List String → List Transaction
  | [], _ => []
  | t :: rest, seen =>
    if seen.contains (dedupKey t) then dedupGo rest seen
    else t :: dedupGo rest (dedupKey t :: seen)

def deduplicateTransactions (transactions : List Transaction) : List Transaction :=
  dedupGo transactions []

/-- The triple that the specification describes as the dedup key:
date, lowercased-trimmed description, amount (currency excluded). -/
def tripleKey (t : Transaction) : String × String × Rat :=
  (t.date, String.mk (trimList (lowerList t.description.data)), t.amount)

/-- Generic "first occurrence per key wins" in the words of the
specification: scanning left to right, a transaction is dropped iff an
earlier element of the input has the same key. -/
def keepFirstByAux {α : Type} [DecidableEq α] (key : Transaction → α) :
    List Transaction → List Transaction → List Transaction
  | [], _ => []
  | t :: rest, processed =>
    if processed.any (fun s => decide (key s = key t)) then
      keepFirstByAux key rest (processed ++ [t])
    else t :: keepFirstByAux key rest (processed ++ [t])

def keepFirstBy {α : Type} [DecidableEq α] (key : Transaction → α)
    (l : List Transaction) : List Transaction :=
  keepFirstByAux key l []

/-- Modelled from the spec (claim C3's reading): deduplication that
keeps exactly the first occurrence per `tripleKey`.  Used only to
compare the claimed behaviour with `deduplicateTransactions`. -/
def specDedupByTriple (l : List Transaction) : List Transaction :=
  keepFirstBy tripleKey l

/-! ## PDF row extractor (src/lib/pdf-parser.ts)

Each regular expression of the source is implemented as an executable
matcher.  A "match-at" function decides whether the pattern matches at
the current position (given the previous character, for `\b`), returning
the captures and the text after the match; `searchPat` scans positions
left to right, which is exactly the JavaScript leftmost-match rule, and
also returns the text before the match so that `replace(re, '')` is
`before ++ after`.  Greedy quantifiers with the backtracking JavaScript
performs are hand-unrolled; the involved character classes (digits,
separators, whitespace) are disjoint, which makes each unrolling
deterministic. -/

/-- No word character follows: the `\b` boundary after a word character. -/
def noWordHead : List Char → Bool
  | [] => true
  | c :: _ => !isWordChar c

def isSep (c : Char) : Bool := c = '-' || c = '/'

/-- Generic leftmost search for a position matcher, tracking the
previous character for `\b` and accumulating the text before the
match. -/
def searchPat {γ : Type} (matchAt : Option Char → List Char → Option (γ × List Char)) :
    Option Char → List Char → Option (γ × List Char × List Char)
  | prev, cs =>
    match matchAt prev cs with
    | some (caps, after) => some (caps, [], after)
    | none =>
      match cs with
      | [] => none
      | c :: rest =>
        (searchPat matchAt (some c) rest).map
          (fun r => (r.1, c :: r.2.1, r.2.2))

/-- The `MONTHS` lookup table of src/lib/pdf-parser.ts, applied to the
lowercased three-letter month token. -/
def monthLookup (a b c : Char) : Option String :=
  let s : List Char := [a.toLower, b.toLower, c.toLower]
  if s = "jan".data then some "01" else if s = "feb".data then some "02"
  else if s = "mar".data then some "03" else if s = "apr".data then some "04"
  else if s = "may".data then some "05" else if s = "jun".data then some "06"
  else if s = "jul".data then some "07" else if s = "aug".data then some "08"
  else if s = "sep".data then some "09" else if s = "oct".data then some "10"
  else if s = "nov".data then some "11" else if s = "dec".data then some "12"
  else none

/-- Tail of `DATE_MON_DD_YYYY`: `,?\s+(\d{4})\b` (a comma is consumed
when present; the following `\s+` could never match it anyway). -/
def monYearCont (cs : List Char) : Option (String × List Char) :=
  let cs1 := match cs with
    | c :: r => if c = ',' then r else cs
    | [] => cs
  match cs1 with
  | w :: rest =>
    if isWSChar w then
      match rest.dropWhile isWSChar with
      | y1 :: y2 :: y3 :: y4 :: rest3 =>
        if isDigitChar y1 && isDigitChar y2 && isDigitChar y3 && isDigitChar y4 && noWordHead rest3 then
          some (String.mk [y1, y2, y3, y4], rest3)
        else none
      | _ => none
    else none
  | [] => none

/-- `DATE_MON_DD_YYYY` at one position:
`\b(Jan|…|Dec)\s+(\d{1,2}),?\s+(\d{4})\b` (case-insensitive).  The day is
matched greedily with the backtracking step from two digits to one.
Captures are returned as (month number, day digits, year digits). -/
def matchMonDDYYYYAt (prev : Option Char) (cs : List Char) :
    Option ((String × String × String) × List Char) :=
  if boundaryOK prev then
    match cs with
    | a :: b :: c :: rest =>
      match monthLookup a b c with
      | none => none
      | some mon =>
        match rest with
        | w :: rest2 =>
          if isWSChar w then
            match rest2.dropWhile isWSChar with
            | d1 :: rest3 =>
              if isDigitChar d1 then
                match rest3 with
                | d2 :: rest4 =>
                  if isDigitChar d2 then
                    match monYearCont rest4 with
                    | some (yr, after) => some ((mon, String.mk [d1, d2], yr), after)
                    | none =>
                      match monYearCont rest3 with
                      | some (yr, after) => some ((mon, String.mk [d1], yr), after)
                      | none => none
                  else
                    match monYearCont rest3 with
                    | some (yr, after) => some ((mon, String.mk [d1], yr), after)
                    | none => none
                | [] => none
              else none
            | [] => none
          else none
        | [] => none
    | _ => none
  else none

/-- Tail of `DATE_DD_MON_YYYY`: `(Mon)\s+(\d{4})\b`. -/
def ddMonCont (cs : List Char) : Option (String × String × List Char) :=
  match cs with
  | a :: b :: c :: rest =>
    match monthLookup a b c with
    | none => none
    | some mon =>
      match rest with
      | w :: rest2 =>
        if isWSChar w then
          match rest2.dropWhile isWSChar with
          | y1 :: y2 :: y3 :: y4 :: rest3 =>
            if isDigitChar y1 && isDigitChar y2 && isDigitChar y3 && isDigitChar y4 && noWordHead rest3 then
              some (mon, String.mk [y1, y2, y3, y4], rest3)
            else none
          | _ => none
        else none
      | [] => none
  | _ => none

/-- `DATE_DD_MON_YYYY` at one position:
`\b(\d{1,2})\s+(Jan|…|Dec)\s+(\d{4})\b` (case-insensitive).  Captures are
(day digits, month number, year digits). -/
def matchDDMonYYYYAt (prev : Option Char) (cs : List Char) :
    Option ((String × String × String) × List Char) :=
  if boundaryOK prev then
    match cs with
    | d1 :: rest =>
      if isDigitChar d1 then
        match rest with
        | d2 :: rest2 =>
          if isDigitChar d2 then
            match (match rest2 with
                   | w :: rest3 => if isWSChar w then ddMonCont (rest3.dropWhile isWSChar) else none
                   | [] => none) with
            | some (mon, yr, after) => some ((String.mk [d1, d2], mon, yr), after)
            | none =>
              match (if isWSChar d2 then ddMonCont (rest2.dropWhile isWSChar) else none) with
              | some (mon, yr, after) => some ((String.mk [d1], mon, yr), after)
              | none => none
          else
            match (if isWSChar d2 then ddMonCont (rest2.dropWhile isWSChar) else none) with
            | some (mon, yr, after) => some ((String.mk [d1], mon, yr), after)
            | none => none
        | [] => none
      else none
    | [] => none
  else none

/-- Day part of `DATE_ISO`: `(\d{1,2})\b`, greedy with backtracking. -/
def isoDay (cs : List Char) : Option (String × List Char) :=
  match cs with
  | d1 :: rest =>
    if isDigitChar d1 then
      match rest with
      | d2 :: rest2 =>
        if isDigitChar d2 && noWordHead rest2 then some (String.mk [d1, d2], rest2)
        else if noWordHead rest then some (String.mk [d1], rest)
        else none
      | [] => some (String.mk [d1], [])
    else none
  | [] => none

def isoSepDay (cs : List Char) : Option (String × List Char) :=
  match cs with
  | s :: r => if isSep s then isoDay r else none
  | [] => none

/-- Month-and-day part of `DATE_ISO`: `(\d{1,2})[\/\-](\d{1,2})\b`. -/
def isoMonth (cs : List Char) : Option (String × String × List Char) :=
  match cs with
  | m1 :: rest =>
    if isDigitChar m1 then
      match rest with
      | m2 :: rest2 =>
        if isDigitChar m2 then
          match isoSepDay rest2 with
          | some (d, after) => some (String.mk [m1, m2], d, after)
          | none =>
            match isoSepDay rest with
            | some (d, after) => some (String.mk [m1], d, after)
            | none => none
        else
          match isoSepDay rest with
          | some (d, after) => some (String.mk [m1], d, after)
          | none => none
      | [] => none
    else none
  | [] => none

/-- `DATE_ISO` at one position:
`\b(\d{4})[\/\-](\d{1,2})[\/\-](\d{1,2})\b`. -/
def matchISOAt (prev : Option Char) (cs : List Char) :
    Option ((String × String × String) × List Char) :=
  if boundaryOK prev then
    match cs with
    | y1 :: y2 :: y3 :: y4 :: s :: rest =>
      if isDigitChar y1 && isDigitChar y2 && isDigitChar y3 && isDigitChar y4 && isSep s then
        (isoMonth rest).map (fun r => ((String.mk [y1, y2, y3, y4], r.1, r.2.1), r.2.2))
      else none
    | _ => none
  else none

/-- Year part of `DATE_SLASH`: `(\d{2,4})\b`, greedy (4, then 3, then 2
digits). -/
def slashYear (cs : List Char) : Option (String × List Char) :=
  match cs with
  | a :: b :: c :: d :: rest =>
    if isDigitChar a && isDigitChar b && isDigitChar c && isDigitChar d && noWordHead rest then
      some (String.mk [a, b, c, d], rest)
    else if isDigitChar a && isDigitChar b && isDigitChar c && noWordHead (d :: rest) then
      some (String.mk [a, b, c], d :: rest)
    else if isDigitChar a && isDigitChar b && noWordHead (c :: d :: rest) then
      some (String.mk [a, b], c :: d :: rest)
    else none
  | [a, b, c] =>
    if isDigitChar a && isDigitChar b && isDigitChar c then some (String.mk [a, b, c], [])
    else if isDigitChar a && isDigitChar b && noWordHead [c] then some (String.mk [a, b], [c])
    else none
  | [a, b] => if isDigitChar a && isDigitChar b then some (String.mk [a, b], []) else none
  | _ => none

def sepThenSlashYear (cs : List Char) : Option (String × List Char) :=
  match cs with
  | s :: r => if isSep s then slashYear r else none
  | [] => none

/-- Day-and-year part of `DATE_SLASH`: `(\d{1,2})[\/\-](\d{2,4})\b`. -/
def slashDayYear (cs : List Char) : Option (String × String × List Char) :=
  match cs with
  | d1 :: rest =>
    if isDigitChar d1 then
      match rest with
      | d2 :: rest2 =>
        if isDigitChar d2 then
          match sepThenSlashYear rest2 with
          | some (yr, after) => some (String.mk [d1, d2], yr, after)
          | none =>
            match sepThenSlashYear rest with
            | some (yr, after) => some (String.mk [d1], yr, after)
            | none => none
        else
          match sepThenSlashYear rest with
          | some (yr, after) => some (String.mk [d1], yr, after)
          | none => none
      | [] => none
    else none
  | [] => none

def sepThenSlashDayYear (cs : List Char) : Option (String × String × List Char) :=
  match cs with
  | s :: r => if isSep s then slashDayYear r else none
  | [] => none

/-- `DATE_SLASH` at one position:
`\b(\d{1,2})[\/\-](\d{1,2})[\/\-](\d{2,4})\b`. -/
def matchSlashAt (prev : Option Char) (cs : List Char) :
    Option ((String × String × String) × List Char) :=
  if boundaryOK prev then
    match cs with
    | m1 :: rest =>
      if isDigitChar m1 then
        match rest with
        | m2 :: rest2 =>
          if isDigitChar m2 then
            match sepThenSlashDayYear rest2 with
            | some (p2, p3, after) => some ((String.mk [m1, m2], p2, p3), after)
            | none =>
              match sepThenSlashDayYear rest with
              | some (p2, p3, after) => some ((String.mk [m1], p2, p3), after)
              | none => none
          else
            match sepThenSlashDayYear rest with
            | some (p2, p3, after) => some ((String.mk [m1], p2, p3), after)
            | none => none
        | [] => none
      else none
    | [] => none
  else none

/-- The `DATE_SLASH` fallback of `extractDate`, including the 2-digit
year heuristic (`> 50` maps to `19xx`, else `20xx`). -/
def extractDateSlash (cs : List Char) : Option (String × String) :=
  match searchPat matchSlashAt none cs with
  | some ((p1, p2, p3), before, after) =>
    let year := if p3.length = 2 then
        (if digitsToNat p3.data > 50 then "19" ++ p3 else "20" ++ p3)
      else p3
    some (year ++ "-" ++ padStart2 p1 ++ "-" ++ padStart2 p2,
      String.mk (trimList (before ++ after)))
  | none => none

/-- `extractDate` of src/lib/pdf-parser.ts: the four date patterns in
priority order; the ISO pattern is accepted only when
year ∈ [1990, 2100], month ∈ [1, 12] and day ∈ [1, 31], otherwise the
slash pattern is still tried.  Returns the normalized `YYYY-MM-DD`
string and the line with the matched date removed and trimmed. -/
def extractDate (line : String) : Option (String × String) :=
  let cs := line.data
  match searchPat matchMonDDYYYYAt none cs with
  | some ((mon, day, yr), before, after) =>
    some (yr ++ "-" ++ mon ++ "-" ++ padStart2 day, String.mk (trimList (before ++ after)))
  | none =>
  match searchPat matchDDMonYYYYAt none cs with
  | some ((day, mon, yr), before, after) =>
    some (yr ++ "-" ++ mon ++ "-" ++ padStart2 day, String.mk (trimList (before ++ after)))
  | none =>
  match searchPat matchISOAt none cs with
  | some ((y, m, d), before, after) =>
    let yr := digitsToNat y.data
    let mo := digitsToNat m.data
    let dy := digitsToNat d.data
    if 1990 ≤ yr && yr ≤ 2100 && 1 ≤ mo && mo ≤ 12 && 1 ≤ dy && dy ≤ 31 then
      some (y ++ "-" ++ padStart2 m ++ "-" ++ padStart2 d,
        String.mk (trimList (before ++ after)))
    else extractDateSlash cs
  | none => extractDateSlash cs

/-- Core of `AMOUNT_RE` after the optional sign:
`[\s]?[\$]?([\d,]+\.\d{2})\b`.  Returns the digit-and-comma run, the two
decimal digits, and the text after the match. -/
def amountAfterSign (neg : Bool) (cs1 : List Char) :
    Option ((Bool × List Char × Char × Char) × List Char) :=
  let cs2 := match cs1 with
    | c :: r => if isWSChar c then r else cs1
    | [] => cs1
  let cs3 := match cs2 with
    | c :: r => if c = '$' then r else cs2
    | [] => cs2
  let run := cs3.takeWhile (fun c => isDigitChar c || c = ',')
  let rest := cs3.dropWhile (fun c => isDigitChar c || c = ',')
  if run.isEmpty then none
  else
    match rest with
    | p :: f1 :: f2 :: rest2 =>
      if p = '.' && isDigitChar f1 && isDigitChar f2 && noWordHead rest2 then
        some ((neg, run, f1, f2), rest2)
      else none
    | _ => none

/-- `AMOUNT_RE` at one position: `(-?)[\s]?[\$]?([\d,]+\.\d{2})\b`.
When a leading `-` is present but the rest fails, the sign-less retry at
the same position fails as well (`-` matches none of the later pieces),
so consuming the sign greedily is faithful. -/
def matchAmountAt (cs : List Char) : Option ((Bool × List Char × Char × Char) × List Char) :=
  match cs with
  | c :: r => if c = '-' then amountAfterSign true r else amountAfterSign false cs
  | [] => amountAfterSign false cs

/-- Numeric value of a matched amount:
`parseFloat(m[2].replace(/,/g, ''))`, exact because the token has
exactly two decimals. -/
def amountValue (run : List Char) (f1 f2 : Char) : Rat :=
  mkRat (Int.ofNat (digitsToNat (run.filter (fun c => c ≠ ',')) * 100
    + digitsToNat [f1, f2])) 100

/-- `CURRENCY_SUFFIX` at one position: `\b(USD|PKR|EUR|GBP)\b`,
case-insensitive; the capture is uppercased as in
`m[1].toUpperCase()`. -/
def matchCurrencyAt (prev : Option Char) (cs : List Char) :
    Option (String × List Char) :=
  if boundaryOK prev then
    match cs with
    | a :: b :: c :: rest =>
      let w : List Char := [a.toLower, b.toLower, c.toLower]
      if (w = "usd".data || w = "pkr".data || w = "eur".data || w = "gbp".data)
          && noWordHead rest then
        some (String.mk ([a, b, c].map Char.toUpper), rest)
      else none
    | _ => none
  else none

/-- `remainder.replace(CURRENCY_SUFFIX, '')`: drop the first currency
token, if any. -/
def removeFirstCurrency (cs : List Char) : List Char :=
  match searchPat matchCurrencyAt none cs with
  | some (_, before, after) => before ++ after
  | none => cs

/-- `replace(/^\s*[-–]\s*/, '')`: strip one leading dash or en-dash and
the whitespace around it; if there is no dash the pattern does not match
and nothing is removed. -/
def stripLeadDash (cs : List Char) : List Char :=
  match cs.dropWhile isWSChar with
  | c :: r => if c = '-' || c = '–' then r.dropWhile isWSChar else cs
  | [] => cs

/-! ### Skip-line patterns (`SKIP_PATTERNS`) -/

/-- `w1\s+w2` anchored at the current position (applied to lowercased
text; both literals start with a non-space character, so consuming the
whitespace run greedily is faithful). -/
def litWS2At (w1 w2 : List Char) (cs : List Char) : Bool :=
  begins w1 cs &&
    (match cs.drop w1.length with
     | c :: rest => isWSChar c && begins w2 (rest.dropWhile isWSChar)
     | [] => false)

/-- `w1\s+w2\s+w3` anchored at the current position. -/
def litWS3At (w1 w2 w3 : List Char) (cs : List Char) : Bool :=
  begins w1 cs &&
    (match cs.drop w1.length with
     | c :: rest => isWSChar c && litWS2At w2 w3 (rest.dropWhile isWSChar)
     | [] => false)

/-- `w1\s+w2$` anchored at the current position and at the end. -/
def litWS2EndAt (w1 w2 : List Char) (cs : List Char) : Bool :=
  begins w1 cs &&
    (match cs.drop w1.length with
     | c :: rest => isWSChar c && rest.dropWhile isWSChar == w2
     | [] => false)

/-- `w1\s+\d` anchored at the current position (for `room\s+\d+`). -/
def litWSDigitAt (w1 : List Char) (cs : List Char) : Bool :=
  begins w1 cs &&
    (match cs.drop w1.length with
     | c :: rest => isWSChar c &&
         (match rest.dropWhile isWSChar with
          | d :: _ => isDigitChar d
          | [] => false)
     | [] => false)

/-- Unanchored search for a position predicate. -/
def searchB (p : List Char → Bool) : List Char → Bool
  | [] => p []
  | c :: cs => p (c :: cs) || searchB p cs

/-- `/^\d+\/\d+$/`: the whole line is digits, a slash, digits. -/
def pageNumPat (cs : List Char) : Bool :=
  let a := cs.takeWhile isDigitChar
  !a.isEmpty &&
    (match cs.dropWhile isDigitChar with
     | c :: b => c = '/' && !b.isEmpty && b.all isDigitChar
     | [] => false)

/-- `/queen.*road.*central/`: the three literals in order. -/
def queenRoadCentral (cs : List Char) : Bool :=
  match afterSub "queen".data cs with
  | some r1 =>
    (match afterSub "road".data r1 with
     | some r2 => containsSub "central".data r2
     | none => false)
  | none => false

/-- `shouldSkipLine` of src/lib/pdf-parser.ts: the thirteen
`SKIP_PATTERNS`, all case-insensitive. -/
def shouldSkipLine (line : String) : Bool :=
  let l := lowerList line.data
  searchB (litWS2At "document".data "number".data) l ||
  searchB (litWS2At "statement".data "period".data) l ||
  searchB (litWS2At "date".data "issued".data) l ||
  searchB (litWS2At "card".data "number".data) l ||
  searchB (litWS2At "client".data "number".data) l ||
  containsSub "consolidated".data l ||
  litWS2At "date".data "description".data l ||
  searchB (litWS2EndAt "transaction".data "amount".data) l ||
  containsSub "redotpay.com".data l ||
  searchB (litWS3At "red".data "dot".data "technology".data) l ||
  queenRoadCentral l ||
  searchB (litWSDigitAt "room".data) l ||
  pageNumPat l

/-! ### The line loop of `extractTransactionsFromPDFText` -/

/-- One iteration of the loop of `extractTransactionsFromPDFText` on a
raw line: trim, length guard, skip guard, date extraction, amount
extraction (the parsed value of a matched token is never `NaN`, so the
`isNaN` guard of the source cannot fire), currency detection,
description cleanup and length guard, sign coercion
(`amount < 0 ? amount : -Math.abs(amount)`), and the validity filter.
`Date.now()` is passed in as `now`. -/
def processLine (fileName : String) (now : Nat) (i : Nat) (rawLine : List Char) :
    Option Transaction :=
  let line := String.mk (trimList rawLine)
  if line.length < 5 then none
  else if shouldSkipLine line then none
  else
    match extractDate line with
    | none => none
    | some (dateStr, remainder) =>
      match searchPat (fun _ cs => matchAmountAt cs) none remainder.data with
      | none => none
      | some ((neg, run, f1, f2), before, after) =>
        let amount : Rat :=
          if neg then Rat.neg (amountValue run f1 f2) else amountValue run f1 f2
        let currency : String :=
          match searchPat matchCurrencyAt none remainder.data with
          | some (cur, _, _) => cur
          | none => "USD"
        let descChars :=
          trimList (collapseWS (stripLeadDash (removeFirstCurrency (before ++ after))))
        if descChars.length < 2 then none
        else
          let txn : Transaction := {
            id := fileName ++ "-" ++ natToStr i ++ "-" ++ natToStr now,
            date := dateStr,
            description := String.mk (descChars.take 100),
            amount := if Rat.blt amount (mkRat 0 1) then amount else Rat.neg |amount|,
            currency := currency,
            category := categorizeTransaction (String.mk descChars),
            sourceFile := fileName }
          if isValidTransaction txn then some txn else none

/-- `extractTransactionsFromPDFText` of src/lib/pdf-parser.ts: split the
reconstructed text into lines and run the loop on each, collecting the
emitted transactions in order. -/
def extractTransactionsFromPDFText (pdfText fileName : String) (now : Nat) :
    List Transaction :=
  ((splitOnChar '\n' pdfText.data).enum).filterMap
    (fun p => processLine fileName now p.1 p.2)

/-! ## Columnar extractor (src/lib/parser.ts) -/

/-- JavaScript `parseFloat` on the decimal forms the pipeline feeds it:
optional leading whitespace, optional sign, digits, optional fraction;
trailing junk is ignored; no digits at all gives `NaN`, modelled as
`none`.  (Exponent and `Infinity` forms are not modelled; no verified
property depends on them.) -/
def parseFloatOpt (s : String) : Option Rat :=
  let cs := s.data.dropWhile isWSChar
  let neg : Bool := match cs with
    | '-' :: _ => true
    | _ => false
  let cs1 := match cs with
    | '-' :: r => r
    | '+' :: r => r
    | _ => cs
  let intPart := cs1.takeWhile isDigitChar
  let rest := cs1.dropWhile isDigitChar
  let fracPart := match rest with
    | c :: r => if c = '.' then r.takeWhile isDigitChar else []
    | [] => []
  if intPart.isEmpty && fracPart.isEmpty then none
  else
    let v := mkRat
      (Int.ofNat (digitsToNat intPart * 10 ^ fracPart.length + digitsToNat fracPart))
      (10 ^ fracPart.length)
    some (if neg then Rat.neg v else v)

/-- `.toString().replace(/[$,]/g, '')`. -/
def stripDollarComma (s : String) : String :=
  String.mk (s.data.filter (fun c => !(c = '$') && !(c = ',')))

/-- A parsed CSV record: ordered header/value pairs (`Object.keys`
enumerates string keys in insertion order). -/
def rowLookup (row : List (String × String)) (k : String) : String :=
  ((row.find? (fun p => p.1 == k)).map Prod.snd).getD ""

def strLower (s : String) : String := String.mk (lowerList s.data)

/-- `formatDate` of src/lib/parser.ts.  Each of its three anchored
patterns requires the whole string to be three digit groups joined by
`/` or `-`; the groups are recovered here once and the per-pattern
length constraints checked in the source's order. -/
def splitDate3 (cs : List Char) : Option (List Char × List Char × List Char) :=
  let a := cs.takeWhile isDigitChar
  match cs.dropWhile isDigitChar with
  | s1 :: r1 =>
    if isSep s1 then
      let b := r1.takeWhile isDigitChar
      match r1.dropWhile isDigitChar with
      | s2 :: r2 =>
        if isSep s2 then
          let c := r2.takeWhile isDigitChar
          match r2.dropWhile isDigitChar with
          | [] => if !a.isEmpty && !b.isEmpty && !c.isEmpty then some (a, b, c) else none
          | _ :: _ => none
        else none
      | [] => none
    else none
  | [] => none

def formatDate (dateStr : String) : String :=
  match splitDate3 dateStr.data with
  | some (a, b, c) =>
    if a.length = 4 && b.length ≤ 2 && c.length ≤ 2 then
      String.mk a ++ "-" ++ padStart2 (String.mk b) ++ "-" ++ padStart2 (String.mk c)
    else if a.length ≤ 2 && b.length ≤ 2 && c.length = 4 then
      String.mk c ++ "-" ++ padStart2 (String.mk a) ++ "-" ++ padStart2 (String.mk b)
    else if a.length ≤ 2 && b.length ≤ 2 && c.length = 2 then
      (if digitsToNat c > 50 then "19" ++ String.mk c else "20" ++ String.mk c)
        ++ "-" ++ padStart2 (String.mk a) ++ "-" ++ padStart2 (String.mk b)
    else dateStr
  | none => dateStr

/-- `JSON.stringify(row)` for rows of plain string values (the values
the modelled CSV front end produces contain no characters that JSON
escapes). -/
def jsonStringifyRow (row : List (String × String)) : String :=
  "\x7b" ++ String.intercalate ","
    (row.map (fun p => "\"" ++ p.1 ++ "\":\"" ++ p.2 ++ "\"")) ++ "\x7d"

/-- `detectCurrency` of src/lib/parser.ts (applied to the lowercased
serialized row). -/
def detectCurrency (content : String) : String :=
  if strIncludes content "pkr" || strIncludes content "rs."
      || strIncludes content "rs " then "PKR"
  else "USD"

/-- The amount resolution of `normalizeTransaction` when both a
debit-named and a credit-named column exist:
`-debit` when `debit > 0`, else `+credit` when `credit > 0`, else `0`
(a `NaN` parse fails the `!isNaN && > 0` test). -/
def debitCreditAmount (debitVal creditVal : Option Rat) : Rat :=
  match debitVal with
  | some d =>
    if Rat.blt (mkRat 0 1) d then Rat.neg d
    else
      match creditVal with
      | some c => if Rat.blt (mkRat 0 1) c then c else mkRat 0 1
      | none => mkRat 0 1
  | none =>
    match creditVal with
    | some c => if Rat.blt (mkRat 0 1) c then c else mkRat 0 1
    | none => mkRat 0 1

/-- `normalizeTransaction` of src/lib/parser.ts.  Header roles are
resolved by case-insensitive substring matching.  Note the source's
date-key predicate: its third disjunct tests whether ANY header
contains `date`/`posted` (the result of `lowerKeys.find` is truthy),
which makes the predicate independent of `k` in that case; the
first-key fallback `|| keys[0]` applies when the predicate never
holds.  `row[undefined]` and absent values both give `''`.  Row values
are strings (`Papa.parse` without dynamic typing), so only the string
branch of the amount parse is modelled. -/
def normalizeTransaction (row : List (String × String)) (fileName : String)
    (index : Nat) (now : Nat) : Option Transaction :=
  let keys := row.map Prod.fst
  let lowerKeys := keys.map strLower
  let dateKey : Option String :=
    match keys.find? (fun k =>
        strIncludes (strLower k) "date" || strIncludes (strLower k) "posted" ||
        (lowerKeys.find? (fun lk =>
          strIncludes lk "date" || strIncludes lk "posted")).isSome) with
    | some k => some k
    | none => keys.head?
  let date := match dateKey with
    | some k => rowLookup row k
    | none => ""
  let descKey : Option String :=
    match keys.find? (fun k =>
        strIncludes (strLower k) "description" || strIncludes (strLower k) "merchant" ||
        strIncludes (strLower k) "payee" || strIncludes (strLower k) "transaction") with
    | some k => some k
    | none => keys.get? 1
  let description := match descKey with
    | some k => rowLookup row k
    | none => ""
  let debitKey := keys.find? (fun k => strIncludes (strLower k) "debit")
  let creditKey := keys.find? (fun k => strIncludes (strLower k) "credit")
  let amount : Option Rat :=
    match debitKey, creditKey with
    | some dk, some ck =>
      some (debitCreditAmount
        (parseFloatOpt (stripDollarComma (rowLookup row dk)))
        (parseFloatOpt (stripDollarComma (rowLookup row ck))))
    | _, _ =>
      match keys.find? (fun k =>
          strIncludes (strLower k) "amount" || strIncludes (strLower k) "debit" ||
          strIncludes (strLower k) "credit" || strIncludes (strLower k) "value") with
      | some ak => parseFloatOpt (stripDollarComma (rowLookup row ak))
      | none => none
  if date = "" then none
  else
    match amount with
    | none => none
    | some amt =>
      some {
        id := fileName ++ "-" ++ natToStr index ++ "-" ++ natToStr now,
        date := formatDate date,
        description := String.mk (trimList description.data),
        amount := amt,
        currency := detectCurrency (strLower (jsonStringifyRow row)),
        category := categorizeTransaction description,
        sourceFile := fileName }

/-- Modelled external collaborator `Papa.parse(content, { header: true,
skipEmptyLines: true })` for plain unquoted CSV: the first non-empty
line is the header, every later non-empty line is split on commas and
zipped with the header names. -/
def papaParseRows (content : String) : List (List (String × String)) :=
  match (splitOnChar '\n' content.data).filter (fun l => !l.isEmpty) with
  | [] => []
  | header :: dataLines =>
    let headers := (splitOnChar ',' header).map String.mk
    dataLines.map (fun l => headers.zip ((splitOnChar ',' l).map String.mk))

/-- `parseCSV` of src/lib/parser.ts: normalize every record and keep
those passing `isValidTransaction`. -/
def parseCSV (content fileName : String) (now : Nat) : List Transaction :=
  (papaParseRows content).enum.filterMap (fun p =>
    match normalizeTransaction p.2 fileName p.1 now with
    | some t => if isValidTransaction t then some t else none
    | none => none)

/-! ## Oracle categorization (src/lib/ai.ts, aiCategorize)

The effectful context is passed explicitly: `enabled` is
`isAIEnabled()` (the stored API key), `oracle` is the result of the
`callAI` network call (`Except.error` when it throws), and `jsonParse`
is the external `JSON.parse` builtin restricted to string arrays
(`none` when it throws; both `JSON.parse` and the response handling sit
inside the `try`, and any throw is caught and returns the input). -/

/-- `response.match(/\[[\s\S]*\]/)`: the substring from the first `[`
through the last `]`, when such a span exists. -/
def extractJsonArray (s : String) : Option String :=
  let rest := s.data.dropWhile (fun c => !(c = '['))
  match rest with
  | [] => none
  | _ :: _ =>
    let upToLast := (rest.reverse.dropWhile (fun c => !(c = ']'))).reverse
    if upToLast.isEmpty then none else some (String.mk upToLast)

/-- `transactions.map((t, i) => ({ ...t, category: categories[i] && …
? categories[i] : t.category }))`: an out-of-range index
(`undefined`) and the empty string are falsy, and only recognized
category labels are accepted. -/
def applyCats (cats : List String) (ts : List Transaction) : List Transaction :=
  ts.enum.map (fun p =>
    match cats.get? p.1 with
    | some c =>
      if !(c = "") && DEFAULT_CATEGORIES.contains c then { p.2 with category := c }
      else p.2
    | none => p.2)

/-- `aiCategorize` of src/lib/ai.ts. -/
def aiCategorize (enabled : Bool) (oracle : Except String String)
    (jsonParse : String → Option (List String))
    (transactions : List Transaction) : List Transaction :=
  if !enabled || transactions.isEmpty then transactions
  else
    match oracle with
    | .error _ => transactions
    | .ok response =>
      match extractJsonArray response with
      | none => transactions
      | some arr =>
        match jsonParse arr with
        | none => transactions
        | some categories => applyCats categories transactions

/-! ## Symbolic ISO date tokens (for the range-guard claim) -/

/-- The four digit characters of a year below 10000. -/
def pad4 (y : Nat) : List Char := [dCh (y / 1000), dCh (y / 100), dCh (y / 10), dCh y]

/-- The two digit characters of a number below 100. -/
def pad2c (n : Nat) : List Char := [dCh (n / 10), dCh n]

/-- A numeric token in `YYYY-MM-DD` / `YYYY/MM/DD` shape. -/
def isoTok (y : Nat) (s1 : Char) (mo : Nat) (s2 : Char) (dy : Nat) : String :=
  String.mk (pad4 y ++ s1 :: (pad2c mo ++ s2 :: pad2c dy))


/-! ## Concrete transactions used in counterexamples and witnesses -/

/-- A transaction whose date contains the key separator `|`. -/
def txPipeDate : Transaction :=
  { id := "a", date := "d|a", description := "b", amount := mkRat 1 1,
    currency := "USD", category := "Other", sourceFile := "f" }

/-- A transaction with a different (date, description, amount) triple
than `txPipeDate` but the same dedup key string. -/
def txPipeDesc : Transaction :=
  { id := "b", date := "d", description := "a|b", amount := mkRat 1 1,
    currency := "USD", category := "Other", sourceFile := "f" }

/-- A USD transaction for the dedup-key witness. -/
def txNetflixUSD : Transaction :=
  { id := "a", date := "2026-02-07", description := "Netflix Subscription",
    amount := mkRat (-16) 1, currency := "USD", category := "Entertainment",
    sourceFile := "f1" }

/-- Same triple as `txNetflixUSD` up to description case, but a
different currency. -/
def txNetflixPKR : Transaction :=
  { id := "b", date := "2026-02-07", description := "netflix subscription",
    amount := mkRat (-16) 1, currency := "PKR", category := "Entertainment",
    sourceFile := "f2" }

/-- The transaction the PDF row extractor produces from the line
`02/07/2026 Netflix Subscription -15.99` (file `f.pdf`, timestamp 7). -/
def txNetflixPdf : Transaction :=
  { id := "f.pdf-0-7", date := "2026-02-07", description := "Netflix Subscription",
    amount := mkRat (-1599) 100, currency := "USD", category := "Entertainment",
    sourceFile := "f.pdf" }

/-- The transaction `parseCSV` produces from
`Date,Description,Amount` / `2026-01-05,,-5.00` (file `f.csv`,
timestamp 0): its description is empty. -/
def txCsvEmptyDesc : Transaction :=
  { id := "f.csv-0-0", date := "2026-01-05", description := "",
    amount := mkRat (-5) 1, currency := "USD", category := "Other",
    sourceFile := "f.csv" }

/-- The transaction the PDF row extractor produces from the line
`Feb 07, 2026 Refund +120.50` (file `f`, timestamp 0): the explicit
`+` is not captured and the stored amount is negative. -/
def txRefundPlus : Transaction :=
  { id := "f-0-0", date := "2026-02-07", description := "Refund +",
    amount := mkRat (-241) 2, currency := "USD", category := "Income",
    sourceFile := "f" }

/-! ## Lemmas -/

theorem rat_blt_iff (a b : Rat) : Rat.blt a b = true ↔ a < b := Iff.rfl

theorem mkRat_zero_eq : mkRat 0 1 = (0 : Rat) := by decide

theorem contains_mem_iff (l : List String) (k : String) :
    l.contains k = true ↔ k ∈ l := by
  simp [List.contains_iff_exists_mem_beq]

theorem dedupGo_sublist (l : List Transaction) :
    ∀ seen : List String, List.Sublist (dedupGo l seen) l := by
  induction l with
  | nil => intro seen; simp [dedupGo]
  | cons t rest ih =>
    intro seen
    simp only [dedupGo]
    split
    · exact (ih seen).cons t
    · exact (ih _).cons₂ t

theorem dedupGo_key_not_mem_seen (l : List Transaction) :
    ∀ (seen : List String) (t : Transaction),
      t ∈ dedupGo l seen → dedupKey t ∉ seen := by
  induction l with
  | nil => intro seen t ht; simp [dedupGo] at ht
  | cons u rest ih =>
    intro seen t ht
    simp only [dedupGo] at ht
    by_cases hc : seen.contains (dedupKey u) = true
    · rw [if_pos hc] at ht
      exact ih seen t ht
    · rw [if_neg hc] at ht
      rcases List.mem_cons.mp ht with rfl | ht'
      · exact fun hmem => hc ((contains_mem_iff _ _).mpr hmem)
      · have := ih _ t ht'
        exact fun hmem => this (List.mem_cons_of_mem _ hmem)

theorem dedupGo_pairwise (l : List Transaction) :
    ∀ seen : List String,
      (dedupGo l seen).Pairwise (fun a b => dedupKey a ≠ dedupKey b) := by
  induction l with
  | nil => intro seen; simp [dedupGo]
  | cons u rest ih =>
    intro seen
    simp only [dedupGo]
    split
    · exact ih seen
    · refine List.Pairwise.cons ?_ (ih _)
      intro b hb heq
      have := dedupGo_key_not_mem_seen rest _ b hb
      exact this (heq ▸ List.mem_cons_self _ _)

theorem dedupGo_eq_self (l : List Transaction) :
    ∀ seen : List String,
      l.Pairwise (fun a b => dedupKey a ≠ dedupKey b) →
      (∀ t ∈ l, dedupKey t ∉ seen) → dedupGo l seen = l := by
  induction l with
  | nil => intro seen _ _; simp [dedupGo]
  | cons u rest ih =>
    intro seen hpw hfresh
    have hc : seen.contains (dedupKey u) = false := by
      cases h : seen.contains (dedupKey u) with
      | false => rfl
      | true =>
        exact absurd ((contains_mem_iff _ _).mp h) (hfresh u (List.mem_cons_self _ _))
    simp only [dedupGo, hc, Bool.false_eq_true, if_false]
    rw [ih _ (List.Pairwise.of_cons hpw)]
    intro t ht hmem
    rcases List.mem_cons.mp hmem with heq | hmem'
    · exact (List.pairwise_cons.mp hpw).1 t ht heq.symm
    · exact hfresh t (List.mem_cons_of_mem _ ht) hmem'

theorem dedupGo_eq_keepFirst (l : List Transaction) :
    ∀ (seen : List String) (processed : List Transaction),
      (∀ k, seen.contains k = true ↔ ∃ s ∈ processed, dedupKey s = k) →
      dedupGo l seen = keepFirstByAux dedupKey l processed := by
  induction l with
  | nil => intro seen processed _; rfl
  | cons t rest ih =>
    intro seen processed hinv
    have hcond : (seen.contains (dedupKey t) = true)
        ↔ (processed.any (fun s => decide (dedupKey s = dedupKey t)) = true) := by
      rw [hinv (dedupKey t), List.any_eq_true]
      constructor
      · rintro ⟨s, hs, hks⟩; exact ⟨s, hs, decide_eq_true hks⟩
      · rintro ⟨s, hs, hks⟩; exact ⟨s, hs, of_decide_eq_true hks⟩
    simp only [dedupGo, keepFirstByAux]
    by_cases hA : processed.any (fun s => decide (dedupKey s = dedupKey t)) = true
    · rw [if_pos (hcond.mpr hA), if_pos hA]
      apply ih
      intro k
      rw [hinv k]
      constructor
      · rintro ⟨s, hs, hks⟩; exact ⟨s, List.mem_append_left _ hs, hks⟩
      · rintro ⟨s, hs, hks⟩
        rcases List.mem_append.mp hs with hs' | hs'
        · exact ⟨s, hs', hks⟩
        · rcases List.mem_singleton.mp hs' with rfl
          subst hks
          obtain ⟨s', hs', hks'⟩ := List.any_eq_true.mp hA
          exact ⟨s', hs', of_decide_eq_true hks'⟩
    · rw [if_neg (fun h => hA (hcond.mp h)), if_neg hA]
      congr 1
      apply ih
      intro k
      rw [contains_mem_iff, List.mem_cons]
      constructor
      · intro h
        rcases h with rfl | hmem
        · exact ⟨t, List.mem_append_right _ (List.mem_singleton.mpr rfl), rfl⟩
        · obtain ⟨s, hs, hks⟩ := (hinv k).mp ((contains_mem_iff _ _).mpr hmem)
          exact ⟨s, List.mem_append_left _ hs, hks⟩
      · rintro ⟨s, hs, hks⟩
        rcases List.mem_append.mp hs with hs' | hs'
        · exact Or.inr ((contains_mem_iff _ _).mp ((hinv k).mpr ⟨s, hs', hks⟩))
        · rcases List.mem_singleton.mp hs' with rfl
          exact Or.inl hks.symm

/-! ## Claim theorems -/

/-- Claim C1.  Deduplication is idempotent:
`deduplicateTransactions (deduplicateTransactions S) = deduplicateTransactions S`
for every transaction list `S`. -/
theorem dedup_idempotent (S : List Transaction) :
    deduplicateTransactions (deduplicateTransactions S) = deduplicateTransactions S := by
  unfold deduplicateTransactions
  exact dedupGo_eq_self _ [] (dedupGo_pairwise S []) (by simp)

/-- Claim C10.  The output of `deduplicateTransactions` is a sublist of
the input: every kept element is an input transaction object with all
its fields unmodified, and the kept elements appear in the input's
relative order. -/
theorem dedup_sublist (l : List Transaction) :
    List.Sublist (deduplicateTransactions l) l :=
  dedupGo_sublist l []

/-- Claim C3 (amended).  `deduplicateTransactions` keeps exactly the
first occurrence per key, where the key is the string
`date ++ "|" ++ lowercasedTrimmedDescription ++ "|" ++ amountString`;
any two transactions agreeing on the (date, lowercased-trimmed
description, amount) triple share that key — currency is not part of
it — and hence collapse to the earlier occurrence.  (The string key
identifies the triple only when date and normalized description do not
contain `|`; see the counterexample.) -/
theorem dedup_string_key_first_occurrence (l : List Transaction)
    (t₁ t₂ : Transaction) (h : tripleKey t₁ = tripleKey t₂) :
    deduplicateTransactions l = keepFirstBy dedupKey l ∧ dedupKey t₁ = dedupKey t₂ := by
  constructor
  · exact dedupGo_eq_keepFirst l [] [] (by simp)
  · have := congrArg (fun p : String × String × Rat =>
      p.1 ++ "|" ++ p.2.1 ++ "|" ++ ratToStr p.2.2) h
    simpa [dedupKey, tripleKey] using this

/-- Witness for the amended claim C3: two concrete transactions that
agree on the triple (case-insensitively on the description) but differ
in currency share their key and collapse to the first one. -/
theorem dedup_string_key_first_occurrence_witness :
    deduplicateTransactions [txNetflixUSD, txNetflixPKR]
        = keepFirstBy dedupKey [txNetflixUSD, txNetflixPKR] ∧
    dedupKey txNetflixUSD = dedupKey txNetflixPKR :=
  dedup_string_key_first_occurrence [txNetflixUSD, txNetflixPKR]
    txNetflixUSD txNetflixPKR (by decide)

/-- Counterexample to claim C3 as stated: because the fields can
contain the `|` separator, `deduplicateTransactions` does not keep one
transaction per (date, lowercased-trimmed description, amount) triple.
`txPipeDate` and `txPipeDesc` have distinct triples, yet the code drops
the second one, while the spec-described triple deduplication keeps
both. -/
theorem dedup_triple_key_counterexample :
    tripleKey txPipeDate ≠ tripleKey txPipeDesc ∧
    deduplicateTransactions [txPipeDate, txPipeDesc] = [txPipeDate] ∧
    specDedupByTriple [txPipeDate, txPipeDesc] = [txPipeDate, txPipeDesc] :=
  ⟨by decide, by decide, by decide⟩

/-- Claim C9.  If the categorization oracle call throws, `aiCategorize`
returns the input transaction list itself (hence with category values
reference-equal to the pre-call keyword-categorized set), and the
failure is never raised to the caller: the error branch returns
normally for every error. -/
theorem oracle_error_preserves_categories (enabled : Bool) (e : String)
    (jsonParse : String → Option (List String)) (ts : List Transaction) :
    aiCategorize enabled (Except.error e) jsonParse ts = ts := by
  unfold aiCategorize
  split <;> rfl

theorem catFirst_mem (entries : List (String × List String)) (d : String) :
    catFirst entries d ∈ entries.map Prod.fst ++ ["Other"] := by
  induction entries with
  | nil => simp [catFirst]
  | cons e rest ih =>
    simp only [catFirst]
    split
    · simp
    · simpa using Or.inr (by simpa using ih)

theorem categorize_mem_default (s : String) :
    categorizeTransaction s ∈ DEFAULT_CATEGORIES := by
  have h := catFirst_mem CATEGORY_KEYWORDS (String.mk (lowerList s.data))
  have hall : (CATEGORY_KEYWORDS.map Prod.fst ++ ["Other"]).all
      (fun x => decide (x ∈ DEFAULT_CATEGORIES)) = true := by decide
  exact of_decide_eq_true (List.all_eq_true.mp hall _ h)

set_option maxHeartbeats 1000000 in
theorem processLine_shape (fn : String) (now i : Nat) (raw : List Char) (t : Transaction)
    (h : processLine fn now i raw = some t) :
    ∃ descChars : List Char, 2 ≤ descChars.length ∧
      t.description = String.mk (descChars.take 100) ∧
      t.category = categorizeTransaction (String.mk descChars) ∧
      isValidTransaction t = true := by
  simp only [processLine] at h
  repeat' split at h
  all_goals try exact Option.noConfusion h
  all_goals (injection h with h'; subst h')
  all_goals exact ⟨_, by omega, rfl, rfl, by assumption⟩

theorem isValid_amount_nonpos (t : Transaction) (h : isValidTransaction t = true) :
    t.amount ≤ 0 := by
  simp only [isValidTransaction] at h
  split at h
  · exact Bool.noConfusion h
  · split at h
    · exact Bool.noConfusion h
    · rename_i hblt
      rw [← mkRat_zero_eq]
      exact not_lt.mp (fun hlt => hblt (rat_blt_iff _ _ |>.mpr hlt))

set_option maxHeartbeats 1000000 in
theorem normalizeTransaction_cat_mem (row : List (String × String)) (fn : String)
    (i now : Nat) (t : Transaction)
    (h : normalizeTransaction row fn i now = some t) :
    t.category ∈ DEFAULT_CATEGORIES := by
  simp only [normalizeTransaction] at h
  repeat' split at h
  all_goals try exact Option.noConfusion h
  all_goals (injection h with h'; subst h')
  all_goals (dsimp only; exact categorize_mem_default _)

/-- Claim C2 (amended).  Every transaction produced by the PDF text
extractor has a description of length at least 2 and a category in the
fixed category set (which contains `Other`); every transaction produced
by the CSV extractor has a category in that set, but its description
may be shorter than 2 characters (see the counterexample).  A candidate
whose amount fails to parse is discarded in both pipelines (the parse
is `Option`-valued in the model, so stored amounts are never `NaN` by
construction). -/
theorem extractor_invariants_amended :
    (∀ (text fn : String) (now : Nat) (t : Transaction),
        t ∈ extractTransactionsFromPDFText text fn now →
          2 ≤ t.description.length ∧ t.category ∈ DEFAULT_CATEGORIES) ∧
    (∀ (content fn : String) (now : Nat) (t : Transaction),
        t ∈ parseCSV content fn now → t.category ∈ DEFAULT_CATEGORIES) := by
  constructor
  · intro text fn now t ht
    simp only [extractTransactionsFromPDFText, List.mem_filterMap] at ht
    obtain ⟨p, _, hp⟩ := ht
    obtain ⟨descChars, hlen, hdesc, hcat, _⟩ := processLine_shape fn now p.1 p.2 t hp
    constructor
    · rw [hdesc]
      show 2 ≤ (List.take 100 descChars).length
      simp only [List.length_take]
      omega
    · rw [hcat]; exact categorize_mem_default _
  · intro content fn now t ht
    simp only [parseCSV, List.mem_filterMap] at ht
    obtain ⟨p, _, hp⟩ := ht
    rcases hnorm : normalizeTransaction p.2 fn p.1 now with _ | t'
    · simp only [hnorm] at hp
      exact Option.noConfusion hp
    · simp only [hnorm] at hp
      split at hp
      · injection hp with h'
        subst h'
        exact normalizeTransaction_cat_mem p.2 fn p.1 now t' hnorm
      · exact Option.noConfusion hp

/-- Witness for the amended claim C2: the transaction extracted from
the line `02/07/2026 Netflix Subscription -15.99` satisfies the PDF
invariants, and the transaction extracted from the CSV row with an
empty description still has a category in the fixed set. -/
theorem extractor_invariants_amended_witness :
    (2 ≤ txNetflixPdf.description.length ∧ txNetflixPdf.category ∈ DEFAULT_CATEGORIES) ∧
    txCsvEmptyDesc.category ∈ DEFAULT_CATEGORIES :=
  ⟨extractor_invariants_amended.1 "02/07/2026 Netflix Subscription -15.99" "f.pdf" 7
      txNetflixPdf (by decide),
   extractor_invariants_amended.2 "Date,Description,Amount\n2026-01-05,,-5.00" "f.csv" 0
      txCsvEmptyDesc (by decide)⟩

/-- Counterexample to claim C2 as stated: `parseCSV` emits a
transaction whose description is the empty string (the CSV pipeline has
no description-length guard), so not every extractor-produced
transaction has a description of length at least 2. -/
theorem csv_empty_description_counterexample :
    parseCSV "Date,Description,Amount\n2026-01-05,,-5.00" "f.csv" 0 = [txCsvEmptyDesc] ∧
    txCsvEmptyDesc.description.length < 2 :=
  ⟨by decide, by decide⟩

/-- Counterexample to claim C4 as stated: the CSV row
`{Date: "2026-01-05", Description: "Paycheck", Debit: "", Credit: "2500.00"}`
yields no transaction at all in the output of `parseCSV`. -/
theorem csv_paycheck_counterexample :
    parseCSV "Date,Description,Debit,Credit\n2026-01-05,Paycheck,,2500.00" "f.csv" 0 = [] := by
  decide

set_option maxHeartbeats 1000000 in
/-- Claim C4 (amended).  The debit/credit row is normalized to amount
`+2500.00`, but its category is `Other` (no keyword of the `Income`
category occurs in "paycheck"), and the validity filter rejects the
positive amount, so `parseCSV` emits nothing for the row. -/
theorem csv_paycheck_amended (now : Nat) :
    (normalizeTransaction
        [("Date", "2026-01-05"), ("Description", "Paycheck"),
         ("Debit", ""), ("Credit", "2500.00")] "f.csv" 0 now).map Transaction.amount
      = some (mkRat 2500 1) ∧
    (normalizeTransaction
        [("Date", "2026-01-05"), ("Description", "Paycheck"),
         ("Debit", ""), ("Credit", "2500.00")] "f.csv" 0 now).map Transaction.category
      = some "Other" ∧
    (normalizeTransaction
        [("Date", "2026-01-05"), ("Description", "Paycheck"),
         ("Debit", ""), ("Credit", "2500.00")] "f.csv" 0 now).map isValidTransaction
      = some false ∧
    parseCSV "Date,Description,Debit,Credit\n2026-01-05,Paycheck,,2500.00" "f.csv" now = [] :=
  ⟨rfl, rfl, rfl, rfl⟩

/-- Counterexample to claim C5 as stated: in the line
`Feb 07, 2026 Refund +120.50` the amount token carries an explicit
positive sign, yet the extractor stores the amount `-120.50`: the
amount pattern captures only `-`, and unsigned parses are negated. -/
theorem pdf_plus_sign_counterexample :
    processLine "f" 0 0 "Feb 07, 2026 Refund +120.50".data = some txRefundPlus ∧
    txRefundPlus.amount < 0 :=
  ⟨by decide, by decide⟩

/-- Claim C5 (amended).  Every transaction stored by the tabular (PDF)
pipeline has a non-positive amount: an explicit `+` is never captured
by the amount pattern, a parsed negative stays negative, and any other
parse is negated (zero-valued tokens store zero). -/
theorem pdf_amount_nonpositive (text fn : String) (now : Nat) (t : Transaction)
    (h : t ∈ extractTransactionsFromPDFText text fn now) : t.amount ≤ 0 := by
  simp only [extractTransactionsFromPDFText, List.mem_filterMap] at h
  obtain ⟨p, _, hp⟩ := h
  obtain ⟨_, _, _, _, hvalid⟩ := processLine_shape fn now p.1 p.2 t hp
  exact isValid_amount_nonpos t hvalid

/-- Witness for the amended claim C5 at the explicit-plus line. -/
theorem pdf_amount_nonpositive_witness : txRefundPlus.amount ≤ 0 :=
  pdf_amount_nonpositive "Feb 07, 2026 Refund +120.50" "f" 0 txRefundPlus (by decide)

/-- Claim C6.  Date normalization is confluent on the four spec
formats: `extractDate` maps "Feb 07, 2026", "07 Feb 2026",
"02/07/2026" and "2026-02-07" to the canonical "2026-02-07" (with an
empty remainder), and `formatDate` of the CSV pipeline agrees on the
two numeric forms it handles. -/
theorem date_normalization_confluent :
    extractDate "Feb 07, 2026" = some ("2026-02-07", "") ∧
    extractDate "07 Feb 2026" = some ("2026-02-07", "") ∧
    extractDate "02/07/2026" = some ("2026-02-07", "") ∧
    extractDate "2026-02-07" = some ("2026-02-07", "") ∧
    formatDate "02/07/2026" = "2026-02-07" ∧
    formatDate "2026-02-07" = "2026-02-07" :=
  ⟨by decide, by decide, by decide, by decide, by decide, by decide⟩

/-- Claim C8.  The line `Statement Period 01/01/2026 to 01/31/2026`
matches the `statement period` metadata skip pattern, and the line loop
of the PDF text extractor therefore produces no transaction from it,
for every file name, timestamp and line index. -/
theorem skip_line_guard (fileName : String) (now i : Nat) :
    shouldSkipLine "Statement Period 01/01/2026 to 01/31/2026" = true ∧
    processLine fileName now i "Statement Period 01/01/2026 to 01/31/2026".data = none :=
  ⟨by decide, rfl⟩

/-! ### Claim C7: the ISO range guard, on symbolic tokens -/

theorem dCh_toNat (n : Nat) : (dCh n).toNat = 48 + n % 10 := by
  have hv : (48 + n % 10).isValidChar := by
    left
    have := Nat.mod_lt n (show 0 < 10 by decide)
    omega
  unfold dCh Char.ofNat
  rw [dif_pos hv]
  rfl

theorem nmod10_lt (n : Nat) : n % 10 < 10 := Nat.mod_lt n (by decide)

theorem dCh_toLower (n : Nat) : (dCh n).toLower = dCh n := by
  unfold Char.toLower
  rw [if_neg]
  rw [dCh_toNat]
  have := nmod10_lt n
  omega

theorem isDigitChar_dCh (n : Nat) : isDigitChar (dCh n) = true := by
  simp only [isDigitChar, dCh_toNat, Bool.and_eq_true, decide_eq_true_eq]
  have := nmod10_lt n
  omega

theorem dCh_ne (n : Nat) (c : Char) (h : c.toNat < 48 ∨ 57 < c.toNat) : ¬(dCh n = c) := by
  intro he
  have h2 := congrArg Char.toNat he
  rw [dCh_toNat] at h2
  have := nmod10_lt n
  omega

theorem isWordChar_dCh (n : Nat) : isWordChar (dCh n) = true := by
  simp [isWordChar, isDigitChar_dCh]

theorem isWSChar_dCh (n : Nat) : isWSChar (dCh n) = false := by
  simp [isWSChar, dCh_ne n ' ' (by decide), dCh_ne n '\t' (by decide),
    dCh_ne n '\n' (by decide), dCh_ne n '\r' (by decide),
    dCh_ne n '\x0b' (by decide), dCh_ne n '\x0c' (by decide)]

theorem isSep_dCh (n : Nat) : isSep (dCh n) = false := by
  simp [isSep, dCh_ne n '-' (by decide), dCh_ne n '/' (by decide)]

theorem boundaryOK_dCh (n : Nat) : boundaryOK (some (dCh n)) = false := by
  simp [boundaryOK, isWordChar_dCh]

theorem monthLookup_eq_none (a b c : Char) (ha : a.toLower.toNat < 97) :
    monthLookup a b c = none := by
  have key : ∀ (x : Char) (xs : List Char), 97 ≤ x.toNat →
      ¬([a.toLower, b.toLower, c.toLower] = x :: xs) := by
    intro x xs hx he
    injection he with h1 _
    have := congrArg Char.toNat h1
    omega
  simp only [monthLookup]
  rw [if_neg (key 'j' ['a', 'n'] (by decide)), if_neg (key 'f' ['e', 'b'] (by decide)),
    if_neg (key 'm' ['a', 'r'] (by decide)), if_neg (key 'a' ['p', 'r'] (by decide)),
    if_neg (key 'm' ['a', 'y'] (by decide)), if_neg (key 'j' ['u', 'n'] (by decide)),
    if_neg (key 'j' ['u', 'l'] (by decide)), if_neg (key 'a' ['u', 'g'] (by decide)),
    if_neg (key 's' ['e', 'p'] (by decide)), if_neg (key 'o' ['c', 't'] (by decide)),
    if_neg (key 'n' ['o', 'v'] (by decide)), if_neg (key 'd' ['e', 'c'] (by decide))]

theorem monthLookup_dCh (n : Nat) (b c : Char) : monthLookup (dCh n) b c = none := by
  apply monthLookup_eq_none
  rw [dCh_toLower, dCh_toNat]
  have := nmod10_lt n
  omega

theorem monthLookup_dash (b c : Char) : monthLookup '-' b c = none :=
  monthLookup_eq_none _ _ _ (by decide)

theorem monthLookup_slash (b c : Char) : monthLookup '/' b c = none :=
  monthLookup_eq_none _ _ _ (by decide)

theorem digitsToNat_pad4 (y : Nat) (h : y ≤ 9999) : digitsToNat (pad4 y) = y := by
  simp only [digitsToNat, pad4, List.foldl, dCh_toNat]
  omega

theorem digitsToNat_pad2c (n : Nat) (h : n ≤ 99) : digitsToNat (pad2c n) = n := by
  simp only [digitsToNat, pad2c, List.foldl, dCh_toNat]
  omega

theorem bOK_none : boundaryOK none = true := rfl
theorem bOK_dash : boundaryOK (some '-') = true := by decide
theorem bOK_slash : boundaryOK (some '/') = true := by decide
theorem ws_dash : isWSChar '-' = false := by decide
theorem ws_slash : isWSChar '/' = false := by decide
theorem dig_dash : isDigitChar '-' = false := by decide
theorem dig_slash : isDigitChar '/' = false := by decide
theorem sep_dash : isSep '-' = true := by decide
theorem sep_slash : isSep '/' = true := by decide

theorem isoTok_searchMon (y mo dy : Nat) (s1 s2 : Char)
    (hs1 : s1 = '-' ∨ s1 = '/') (hs2 : s2 = '-' ∨ s2 = '/') :
    searchPat matchMonDDYYYYAt none (isoTok y s1 mo s2 dy).data = none := by
  rcases hs1 with rfl | rfl <;> rcases hs2 with rfl | rfl <;>
    simp [isoTok, pad4, pad2c, searchPat, matchMonDDYYYYAt, monthLookup_dCh,
      monthLookup_dash, monthLookup_slash, boundaryOK_dCh, bOK_dash, bOK_slash,
      ws_dash, ws_slash, dig_dash, dig_slash]

theorem isoTok_searchDDMon (y mo dy : Nat) (s1 s2 : Char)
    (hs1 : s1 = '-' ∨ s1 = '/') (hs2 : s2 = '-' ∨ s2 = '/') :
    searchPat matchDDMonYYYYAt none (isoTok y s1 mo s2 dy).data = none := by
  rcases hs1 with rfl | rfl <;> rcases hs2 with rfl | rfl <;>
    simp [isoTok, pad4, pad2c, searchPat, matchDDMonYYYYAt, isDigitChar_dCh,
      boundaryOK_dCh, isWSChar_dCh, bOK_dash, bOK_slash, ws_dash, ws_slash,
      dig_dash, dig_slash]

theorem isoTok_searchISO (y mo dy : Nat) (s1 s2 : Char)
    (hs1 : s1 = '-' ∨ s1 = '/') (hs2 : s2 = '-' ∨ s2 = '/') :
    searchPat matchISOAt none (isoTok y s1 mo s2 dy).data
      = some ((String.mk (pad4 y), String.mk (pad2c mo), String.mk (pad2c dy)), [], []) := by
  rcases hs1 with rfl | rfl <;> rcases hs2 with rfl | rfl <;>
    simp [isoTok, pad4, pad2c, searchPat, matchISOAt, isoMonth, isoSepDay, isoDay,
      isDigitChar_dCh, isSep_dCh, boundaryOK_dCh, bOK_none, bOK_dash, bOK_slash,
      sep_dash, sep_slash, dig_dash, dig_slash, noWordHead]

theorem isoTok_searchSlash (y mo dy : Nat) (s1 s2 : Char)
    (hs1 : s1 = '-' ∨ s1 = '/') (hs2 : s2 = '-' ∨ s2 = '/') :
    searchPat matchSlashAt none (isoTok y s1 mo s2 dy).data = none := by
  rcases hs1 with rfl | rfl <;> rcases hs2 with rfl | rfl <;>
    simp [isoTok, pad4, pad2c, searchPat, matchSlashAt, sepThenSlashDayYear,
      slashDayYear, sepThenSlashYear, slashYear, isDigitChar_dCh, isSep_dCh,
      boundaryOK_dCh, bOK_dash, bOK_slash, sep_dash, sep_slash, dig_dash, dig_slash]

theorem padStart2_two (a b : Char) : padStart2 (String.mk [a, b]) = String.mk [a, b] := rfl

/-- Claim C7.  A numeric token of `YYYY-MM-DD` / `YYYY/MM/DD` shape
(year rendered with four digits, month and day with two, separated by
`-` or `/`) is accepted as a date by `extractDate` only when
year ∈ [1990, 2100], month ∈ [1, 12] and day ∈ [1, 31]: outside those
ranges the ISO pattern produces no date, and no other date pattern of
the extractor matches the token either; inside the ranges the token is
normalized as expected. -/
theorem iso_range_guard (y mo dy : Nat) (s1 s2 : Char)
    (hs1 : s1 = '-' ∨ s1 = '/') (hs2 : s2 = '-' ∨ s2 = '/')
    (hy9 : y ≤ 9999) (hmo : mo ≤ 99) (hdy : dy ≤ 99) :
    (¬(1990 ≤ y ∧ y ≤ 2100 ∧ 1 ≤ mo ∧ mo ≤ 12 ∧ 1 ≤ dy ∧ dy ≤ 31) →
      extractDate (isoTok y s1 mo s2 dy) = none) ∧
    ((1990 ≤ y ∧ y ≤ 2100 ∧ 1 ≤ mo ∧ mo ≤ 12 ∧ 1 ≤ dy ∧ dy ≤ 31) →
      extractDate (isoTok y s1 mo s2 dy)
        = some (String.mk (pad4 y) ++ "-" ++ String.mk (pad2c mo) ++ "-"
            ++ String.mk (pad2c dy), "")) := by
  have hA := isoTok_searchMon y mo dy s1 s2 hs1 hs2
  have hB := isoTok_searchDDMon y mo dy s1 s2 hs1 hs2
  have hC := isoTok_searchISO y mo dy s1 s2 hs1 hs2
  have hS := isoTok_searchSlash y mo dy s1 s2 hs1 hs2
  have hyv : digitsToNat (String.mk (pad4 y)).data = y := digitsToNat_pad4 y hy9
  have hmv : digitsToNat (String.mk (pad2c mo)).data = mo := digitsToNat_pad2c mo hmo
  have hdv : digitsToNat (String.mk (pad2c dy)).data = dy := digitsToNat_pad2c dy hdy
  constructor
  · intro hneg
    simp only [extractDate, hA, hB, hC, hyv, hmv, hdv, extractDateSlash, hS]
    split
    · rename_i hc
      simp only [Bool.and_eq_true, decide_eq_true_eq] at hc
      exact absurd ⟨hc.1.1.1.1.1, hc.1.1.1.1.2, hc.1.1.1.2, hc.1.1.2, hc.1.2, hc.2⟩ hneg
    · rfl
  · rintro ⟨h1, h2, h3, h4, h5, h6⟩
    simp only [extractDate, hA, hB, hC, hyv, hmv, hdv, decide_eq_true h1,
      decide_eq_true h2, decide_eq_true h3, decide_eq_true h4, decide_eq_true h5,
      decide_eq_true h6, Bool.and_self, if_true, padStart2_two]
    rfl

/-- Witness for claim C7: the out-of-range token `2026-13-45` produces
no date, and the in-range token `2026-02-07` is normalized. -/
theorem iso_range_guard_witness :
    extractDate (isoTok 2026 '-' 13 '-' 45) = none ∧
    extractDate (isoTok 2026 '-' 2 '-' 7)
      = some (String.mk (pad4 2026) ++ "-" ++ String.mk (pad2c 2) ++ "-"
          ++ String.mk (pad2c 7), "") :=
  ⟨(iso_range_guard 2026 13 45 '-' '-' (Or.inl rfl) (Or.inl rfl)
      (by decide) (by decide) (by decide)).1 (by decide),
   (iso_range_guard 2026 2 7 '-' '-' (Or.inl rfl) (Or.inl rfl)
      (by decide) (by decide) (by decide)).2 (by decide)⟩
